import Mathlib

/-!
# Shallow embedding of the sme-ops-center document-ingestion gateway

This file embeds, in Lean, the document lifecycle and audit-trail subsystem
of the api-gateway service: the data model of `app/models.py`, the service
layer of `app/services.py`, and the four public document operations of
`app/routes/docs.py` (`upload_document`, `trigger_indexing`,
`get_docs_status`, `query_documents`).

Modelling conventions:

* The relational store is a `DB` value holding the `doc_asset` rows, the
  append-only `audit_event` rows (list order = creation order, standing in
  for the serial primary key / `ts` column), and the auto-increment counter
  for document ids.  `DB.status_log` is a specification-only history
  variable: it records every `(doc_id, old_status, new_status)` pair
  committed by `update_doc_indexed_status`, so that "only these transitions
  ever occur" and "has reached READY at least once" are statable; it does
  not influence any computed result.
* External capabilities are oracles passed as arguments: the SHA-256 hex
  digest of `hashlib` is a `String → String` parameter; the Vertex AI
  connector (`trigger_vertex_import`) receives its outcome (`none` = success,
  `some e` = failure with message `e`, which also covers the in-function
  configuration checks that return `(False, msg)`); the fallible
  infrastructure calls that the routes wrap in `try`/`except` (the storage
  write and the doc-ledger insert in `upload_document`, the ledger read in
  `get_docs_status`) receive an optional fault (`some msg` = the call
  raises an exception whose `str` is `msg`).  The audit append itself is
  modelled as reliable.
* Timestamp columns (`ts`, `uploaded_at`) are server-assigned and no claim
  depends on them; `uploaded_at` is carried as an `Option Nat` left `none`.
-/

namespace SmeOps

/-- `IndexedStatus` enum of `app/models.py`. -/
inductive IndexedStatus
  | pending
  | indexing
  | ready
  | failed
  deriving DecidableEq, Repr

/-- `IndexedStatus.value` — the string payload of the Python enum. -/
def IndexedStatus.value : IndexedStatus → String
  | .pending => "pending"
  | .indexing => "indexing"
  | .ready => "ready"
  | .failed => "failed"

/-- `AuditModule` enum of `app/models.py`. -/
inductive AuditModule
  | module_a
  | module_b
  | module_c
  | admin
  | system
  deriving DecidableEq, Repr

/-- `AuditStatus` enum of `app/models.py`. -/
inductive AuditStatus
  | success
  | failure
  | pending
  deriving DecidableEq, Repr

/-- JSON-like values stored in the `*_json` columns of `audit_event`. -/
inductive JVal
  | str (s : String)
  | num (n : Nat)
  | null
  deriving DecidableEq, Repr

/-- A JSON object: key/value pairs in insertion order. -/
abbrev JObj := List (String × JVal)

/-- `DocAsset` row (`doc_asset` table of `app/models.py`). -/
structure DocAsset where
  id : Nat
  filename : String
  storage_uri : String
  uploaded_at : Option Nat
  indexed_status : IndexedStatus
  datastore_ref : Option String
  deleted_at : Option Nat
  deriving DecidableEq, Repr

/-- `AuditEvent` row (`audit_event` table of `app/models.py`); the serial
`id`/`ts` ordering is the position in `DB.audits`. -/
structure AuditEvent where
  module : AuditModule
  request_id : String
  user_id : Option String
  session_id : Option String
  prompt_hash : Option String
  sources_json : Option JObj
  tool_calls_json : Option JObj
  decision_json : Option JObj
  status : AuditStatus
  error : Option String
  deriving DecidableEq, Repr

/-- One committed `update_doc_indexed_status` call (history variable). -/
structure StatusTransition where
  doc_id : Nat
  old_status : IndexedStatus
  new_status : IndexedStatus
  deriving DecidableEq, Repr

/-- The transactional store backing the Document Ledger and Audit Ledger. -/
structure DB where
  docs : List DocAsset
  audits : List AuditEvent
  status_log : List StatusTransition
  next_doc_id : Nat
  deriving DecidableEq, Repr

/-- A freshly migrated, empty store (serial ids start at 1). -/
def DB.empty : DB :=
  { docs := [], audits := [], status_log := [], next_doc_id := 1 }

/-! ## Service layer (`app/services.py`) -/

/-- `hash_prompt`: `hashlib.sha256(prompt.encode()).hexdigest()[:16]`.
`sha256hex` is the external `hashlib` digest function. -/
def hash_prompt (sha256hex : String → String) (prompt : String) : String :=
  (sha256hex prompt).take 16

/-- Python `str.startswith` / SQL `LIKE "gs://%"`, embedded over the
character sequence of the string. -/
def str_startswith (s pre : String) : Bool :=
  decide (s.toList.take pre.toList.length = pre.toList)

/-- `file.filename or "unnamed"` — Python `or` falls through on `None`
and on the empty string (both falsy). -/
def filename_or_unnamed : Option String → String
  | none => "unnamed"
  | some s => if s = "" then "unnamed" else s

/-- Index of the last occurrence of `c` in `cs`, if any (Python
`str.rfind`). -/
def rfind_idx (cs : List Char) (c : Char) : Option Nat :=
  ((List.range cs.length).filter (fun i => cs.get? i = some c)).getLast?

/-- `pathlib.Path(filename).suffix`: the extension of the final path
component (the characters after the last `/`) — `name[i:]` for the last
`.` at index `i` with `0 < i < len(name) - 1`, else the empty string. -/
def path_suffix (filename : String) : String :=
  let name := (filename.toList.reverse.takeWhile (fun c => c ≠ '/')).reverse
  match rfind_idx name '.' with
  | some i => if 0 < i ∧ i < name.length - 1 then String.mk (name.drop i) else ""
  | none => ""

/-- `_save_to_local`: writes the bytes under
`{UPLOADS_DIR}/{request_id}{extension}` and returns the relative
`uploads/…` address together with the unmodified original filename.
`write_fault = some msg` models the file write raising an `OSError msg`. -/
def _save_to_local (write_fault : Option String) (filename : String)
    (request_id : String) : Except String (String × String) :=
  let file_extension := path_suffix filename
  let unique_filename := request_id ++ file_extension
  match write_fault with
  | some msg => .error msg
  | none => .ok ("uploads/" ++ unique_filename, filename)

/-- `_save_to_gcs`: uploads under `docs/{request_id}/{filename}` and
returns the full `gs://` address with the unmodified original filename.
A missing bucket raises `ValueError`; `upload_fault = some msg` models the
client raising, re-wrapped as a `RuntimeError`. -/
def _save_to_gcs (bucket : Option String) (upload_fault : Option String)
    (filename : String) (request_id : String) :
    Except String (String × String) :=
  match bucket with
  | none =>
      .error "GCS_BUCKET_NAME environment variable is required when STORAGE_BACKEND=gcs"
  | some bucket_name =>
      let object_name := "docs/" ++ request_id ++ "/" ++ filename
      match upload_fault with
      | some msg => .error ("Failed to upload to GCS: " ++ msg)
      | none => .ok ("gs://" ++ bucket_name ++ "/" ++ object_name, filename)

/-- Environment and fault oracle for one upload request: the configuration
read from the process environment plus the outcome of each fallible
external call (see the module docstring). -/
structure UploadEnv where
  storage_backend : String
  gcs_bucket : Option String
  local_write_fault : Option String
  gcs_upload_fault : Option String
  doc_ledger_fault : Option String
  vertex_outcome : Option String
  deriving DecidableEq, Repr

/-- `save_uploaded_file`: dispatches on `STORAGE_BACKEND`, returning
`(storage_uri, filename)` or the raised exception's message. -/
def save_uploaded_file (env : UploadEnv) (client_filename : Option String)
    (request_id : String) : Except String (String × String) :=
  let original_filename := filename_or_unnamed client_filename
  if env.storage_backend = "gcs" then
    _save_to_gcs env.gcs_bucket env.gcs_upload_fault original_filename request_id
  else
    _save_to_local env.local_write_fault original_filename request_id

/-- `create_doc_asset`: inserts a `doc_asset` row with status PENDING and
returns the refreshed row (its serial id). -/
def create_doc_asset (db : DB) (filename storage_uri : String) :
    DocAsset × DB :=
  let doc : DocAsset :=
    { id := db.next_doc_id
      filename := filename
      storage_uri := storage_uri
      uploaded_at := none
      indexed_status := .pending
      datastore_ref := none
      deleted_at := none }
  (doc, { db with docs := db.docs ++ [doc], next_doc_id := db.next_doc_id + 1 })

/-- `create_audit_event`: appends one `audit_event` row. -/
def create_audit_event (db : DB) (module : AuditModule) (request_id : String)
    (user_id session_id prompt_hash : Option String)
    (sources_json tool_calls_json decision_json : Option JObj)
    (status : AuditStatus) (error : Option String) : DB :=
  { db with
      audits := db.audits ++
        [{ module := module
           request_id := request_id
           user_id := user_id
           session_id := session_id
           prompt_hash := prompt_hash
           sources_json := sources_json
           tool_calls_json := tool_calls_json
           decision_json := decision_json
           status := status
           error := error }] }

/-- `get_all_docs`: all rows with `deleted_at IS NULL`. -/
def get_all_docs (db : DB) : List DocAsset :=
  db.docs.filter (fun d => d.deleted_at.isNone)

/-- `check_duplicate_filename`: first active row with this exact filename. -/
def check_duplicate_filename (db : DB) (filename : String) : Option DocAsset :=
  (db.docs.filter (fun d =>
    d.filename = filename ∧ d.deleted_at.isNone)).head?

/-- `get_pending_gcs_docs`: active PENDING rows whose `storage_uri` is
`LIKE "gs://%"`, optionally restricted to one id. -/
def get_pending_gcs_docs (db : DB) (doc_id : Option Nat) : List DocAsset :=
  db.docs.filter (fun d =>
    d.deleted_at.isNone && decide (d.indexed_status = .pending) &&
    str_startswith d.storage_uri "gs://" &&
    (match doc_id with
     | none => true
     | some i => decide (d.id = i)))

/-- The field update performed by `update_doc_indexed_status` on its
target row: always sets `indexed_status`; sets `datastore_ref` only when
one is supplied. -/
def apply_status_update (d : DocAsset) (status : IndexedStatus)
    (datastore_ref : Option String) : DocAsset :=
  { d with
      indexed_status := status
      datastore_ref :=
        match datastore_ref with
        | none => d.datastore_ref
        | some r => some r }

/-- `update_doc_indexed_status`: commits the field update on the row with
the given id, recording the transition in the history variable. -/
def update_doc_indexed_status (db : DB) (doc_id : Nat)
    (status : IndexedStatus) (datastore_ref : Option String) : DB :=
  { db with
      docs := db.docs.map (fun d =>
        if d.id = doc_id then apply_status_update d status datastore_ref else d)
      status_log := db.status_log ++
        (db.docs.filter (fun d => d.id = doc_id)).map (fun d =>
          { doc_id := doc_id, old_status := d.indexed_status,
            new_status := status }) }

/-- `trigger_vertex_import`: the Indexing Connector boundary.  The Google
client call is external; its outcome is the oracle (`none` = import
succeeded, `some e` = `(False, e)` — covering missing configuration and
client exceptions alike, which all return such a pair in the source). -/
def trigger_vertex_import (outcome : Option String) : Bool × Option String :=
  match outcome with
  | none => (true, none)
  | some e => (false, some e)

/-- Lookup of a document row by id (first match, as SQL primary-key
lookup). -/
def find_doc (db : DB) (i : Nat) : Option DocAsset :=
  db.docs.find? (fun d => d.id = i)

/-! ## Response schemas (`app/schemas.py`) -/

/-- `Citation` schema. -/
structure Citation where
  doc_name : String
  snippet : String
  page_or_section : Option String
  uri_or_id : Option String
  deriving DecidableEq, Repr

/-- `DocQueryResponse` schema. -/
structure DocQueryResponse where
  request_id : String
  answer : String
  citations : List Citation
  deriving DecidableEq, Repr

/-- `DocUploadResponse` schema. -/
structure DocUploadResponse where
  request_id : String
  doc_id : Nat
  filename : String
  message : String
  duplicate_warning : Option String
  deriving DecidableEq, Repr

/-- One entry of `DocStatusResponse.documents` as built by
`get_docs_status` (timestamps rendered by `isoformat`, modelled as
`toString`). -/
structure DocStatusEntry where
  id : Nat
  filename : String
  uploaded_at : Option String
  indexed_status : String
  storage_uri : String
  datastore_ref : Option String
  deleted_at : Option String
  deriving DecidableEq, Repr

/-- `DocStatusResponse` schema. -/
structure DocStatusResponse where
  request_id : String
  documents : List DocStatusEntry
  deriving DecidableEq, Repr

/-- One entry of `DocIndexResponse.details`. -/
structure IndexDetail where
  doc_id : Nat
  filename : String
  status : String
  error : Option String
  deriving DecidableEq, Repr

/-- `DocIndexResponse` schema. -/
structure DocIndexResponse where
  request_id : String
  triggered : Nat
  succeeded : Nat
  failed : Nat
  details : List IndexDetail
  deriving DecidableEq, Repr

/-- `ErrorResponse` schema (the payload of the raised `HTTPException`). -/
structure ErrorResponse where
  request_id : String
  error : String
  detail : Option String
  deriving DecidableEq, Repr

/-! ## Route handlers (`app/routes/docs.py`)

Each handler returns its HTTP outcome — `.ok` for the success response,
`.error` for the `HTTPException` detail — paired with the store after the
request. -/

/-- The shared `except` handler of `upload_document`: append one FAILURE
audit event carrying `str(e)`, then raise HTTP 500 with a generic
"Upload failed" error. -/
def upload_except_handler (db : DB) (request_id : String) (e : String) :
    Except ErrorResponse DocUploadResponse × DB :=
  (.error { request_id := request_id, error := "Upload failed", detail := some e },
   create_audit_event db .module_a request_id none none none none none none
     .failure (some e))

/-- `upload_document` (`POST /docs/upload`). -/
def upload_document (env : UploadEnv) (db : DB)
    (client_filename : Option String) (request_id : String) :
    Except ErrorResponse DocUploadResponse × DB :=
  let original_filename := filename_or_unnamed client_filename
  let existing_doc := check_duplicate_filename db original_filename
  match save_uploaded_file env client_filename request_id with
  | .error e => upload_except_handler db request_id e
  | .ok (storage_uri, filename) =>
    match env.doc_ledger_fault with
    | some e => upload_except_handler db request_id e
    | none =>
      let (doc_asset, db1) := create_doc_asset db filename storage_uri
      let db2 :=
        if env.storage_backend = "gcs" ∧ str_startswith storage_uri "gs://" then
          let dbA := update_doc_indexed_status db1 doc_asset.id .indexing none
          match trigger_vertex_import env.vertex_outcome with
          | (true, _) =>
              update_doc_indexed_status dbA doc_asset.id .ready (some storage_uri)
          | (false, _) =>
              update_doc_indexed_status dbA doc_asset.id .failed none
        else db1
      let db3 := create_audit_event db2 .module_a request_id none none none
        (some [("filename", .str filename), ("doc_id", .num doc_asset.id)])
        none none .success none
      let duplicate_warning :=
        match existing_doc with
        | none => none
        | some ex =>
            some ("A document with filename '" ++ filename ++
              "' already exists (ID: " ++ toString ex.id ++
              "). This upload creates a new record.")
      (.ok { request_id := request_id
             doc_id := doc_asset.id
             filename := filename
             message := "Document uploaded successfully"
             duplicate_warning := duplicate_warning }, db3)

/-- The per-document loop of `trigger_indexing`: for the `i`-th snapshot
row, mark INDEXING, call the connector (`conn i`), then mark READY with
`datastore_ref := storage_uri` or FAILED, accumulating counters and
per-document details. -/
def index_loop (conn : Nat → Option String) :
    List DocAsset → Nat → DB → DB × Nat × Nat × List IndexDetail
  | [], _, db => (db, 0, 0, [])
  | doc :: rest, i, db =>
    let dbA := update_doc_indexed_status db doc.id .indexing none
    match trigger_vertex_import (conn i) with
    | (true, _) =>
      let dbB := update_doc_indexed_status dbA doc.id .ready (some doc.storage_uri)
      let r := index_loop conn rest (i + 1) dbB
      (r.1, r.2.1 + 1, r.2.2.1,
       { doc_id := doc.id, filename := doc.filename,
         status := "ready", error := none } :: r.2.2.2)
    | (false, err) =>
      let dbB := update_doc_indexed_status dbA doc.id .failed none
      let r := index_loop conn rest (i + 1) dbB
      (r.1, r.2.1, r.2.2.1 + 1,
       { doc_id := doc.id, filename := doc.filename,
         status := "failed", error := err } :: r.2.2.2)

/-- `trigger_indexing` (`POST /docs/index`). -/
def trigger_indexing (db : DB) (request_id : String) (doc_id : Option Nat)
    (conn : Nat → Option String) : DocIndexResponse × DB :=
  let docs := get_pending_gcs_docs db doc_id
  let triggered := docs.length
  let r := index_loop conn docs 0 db
  let succeeded := r.2.1
  let failed := r.2.2.1
  let details := r.2.2.2
  let db2 := create_audit_event r.1 .module_a request_id none none none
    (some [("triggered", .num triggered), ("succeeded", .num succeeded),
           ("failed", .num failed)])
    none none
    (if failed = 0 then .success else .failure)
    (if failed = 0 then none
     else some (toString failed ++ " of " ++ toString triggered ++
       " imports failed"))
  ({ request_id := request_id
     triggered := triggered
     succeeded := succeeded
     failed := failed
     details := details }, db2)

/-- The response dictionary built for one row by `get_docs_status`. -/
def doc_status_entry (d : DocAsset) : DocStatusEntry :=
  { id := d.id
    filename := d.filename
    uploaded_at := d.uploaded_at.map toString
    indexed_status := d.indexed_status.value
    storage_uri := d.storage_uri
    datastore_ref := d.datastore_ref
    deleted_at := d.deleted_at.map toString }

/-- `get_docs_status` (`GET /docs/status`); `ledger_fault` models the
ledger read raising inside the `try` block. -/
def get_docs_status (db : DB) (request_id : String)
    (ledger_fault : Option String) :
    Except ErrorResponse DocStatusResponse × DB :=
  match ledger_fault with
  | some e =>
      (.error { request_id := request_id
                error := "Failed to retrieve document status"
                detail := some e },
       create_audit_event db .module_a request_id none none none none none none
         .failure (some e))
  | none =>
      let docs := get_all_docs db
      let documents := docs.map doc_status_entry
      let db1 := create_audit_event db .module_a request_id none none none
        (some [("doc_count", .num documents.length)]) none none .success none
      (.ok { request_id := request_id, documents := documents }, db1)

/-- `query_documents` (`POST /docs/query`): the deliberate stub — fixed
refusal answer, empty citations, one audit event. -/
def query_documents (sha256hex : String → String) (db : DB) (query : String)
    (request_id : String) : DocQueryResponse × DB :=
  let prompt_hash := hash_prompt sha256hex query
  let answer := "Information not found in internal records."
  let citations : List Citation := []
  let db1 := create_audit_event db .module_a request_id none none
    (some prompt_hash)
    (some [("query", .str query), ("citations_count", .num citations.length)])
    none none .success none
  ({ request_id := request_id, answer := answer, citations := citations }, db1)

/-- The stores reachable from a fresh deployment through the four public
document operations. -/
inductive Reachable : DB → Prop
  | init : Reachable DB.empty
  | upload (env : UploadEnv) (f : Option String) (rid : String) {db : DB} :
      Reachable db → Reachable (upload_document env db f rid).2
  | status_list (rid : String) (fault : Option String) {db : DB} :
      Reachable db → Reachable (get_docs_status db rid fault).2
  | query (sha : String → String) (q rid : String) {db : DB} :
      Reachable db → Reachable (query_documents sha db q rid).2
  | index (rid : String) (did : Option Nat) (conn : Nat → Option String)
      {db : DB} :
      Reachable db → Reachable (trigger_indexing db rid did conn).2

/-- The default deployment configuration: local storage backend, every
modelled external call succeeding. -/
def local_env : UploadEnv :=
  { storage_backend := "local"
    gcs_bucket := none
    local_write_fault := none
    gcs_upload_fault := none
    doc_ledger_fault := none
    vertex_outcome := none }

/-- A GCS deployment with a configured bucket, storage and ledger healthy,
and the indexing connector's outcome given by `outcome`. -/
def gcs_env (bucket : String) (outcome : Option String) : UploadEnv :=
  { storage_backend := "gcs"
    gcs_bucket := some bucket
    local_write_fault := none
    gcs_upload_fault := none
    doc_ledger_fault := none
    vertex_outcome := outcome }

/-- The status transitions the specification allows:
PENDING→INDEXING, INDEXING→READY, INDEXING→FAILED. -/
def legal_transition (a b : IndexedStatus) : Prop :=
  (a = .pending ∧ b = .indexing) ∨
  (a = .indexing ∧ (b = .ready ∨ b = .failed))

/-- The document with id `i` has been set to READY at least once in the
recorded history. -/
def reached_ready (log : List StatusTransition) (i : Nat) : Prop :=
  ∃ t ∈ log, t.doc_id = i ∧ t.new_status = .ready

/-- A store with three eligible (active, PENDING, `gs://`) documents, used
to exercise the batch-indexing claims on the specification's own test
scenario. -/
def sample_gcs_db : DB :=
  { docs :=
      [⟨1, "a.pdf", "gs://b/docs/r1/a.pdf", none, .pending, none, none⟩,
       ⟨2, "b.pdf", "gs://b/docs/r2/b.pdf", none, .pending, none, none⟩,
       ⟨3, "c.pdf", "gs://b/docs/r3/c.pdf", none, .pending, none, none⟩]
    audits := []
    status_log := []
    next_doc_id := 4 }

/-- A connector oracle that fails for exactly the second document of a
batch and succeeds for the others. -/
def sample_conn : Nat → Option String :=
  fun i => if i = 1 then some "import failed" else none

/-- The store invariant maintained by every public operation. -/
structure Inv (db : DB) : Prop where
  nodup : (db.docs.map (·.id)).Nodup
  lt_next : ∀ d ∈ db.docs, d.id < db.next_doc_id
  log_lt_next : ∀ t ∈ db.status_log, t.doc_id < db.next_doc_id
  log_legal : ∀ t ∈ db.status_log, legal_transition t.old_status t.new_status
  ref_ready : ∀ d ∈ db.docs, d.datastore_ref ≠ none ↔ d.indexed_status = .ready
  ready_reached : ∀ d ∈ db.docs,
    d.indexed_status = .ready ↔ reached_ready db.status_log d.id

/-! ## Basic lemmas about the embedded operations -/

theorem str_startswith_append (pre t : String) :
    str_startswith (pre ++ t) pre = true := by
  have h : (pre ++ t).toList = pre.toList ++ t.toList := by
    simp [String.toList]
  simp [str_startswith, h, List.take_left]

theorem create_audit_event_docs (db : DB) (m : AuditModule) (rid : String)
    (u s ph : Option String) (sj tj dj : Option JObj) (st : AuditStatus)
    (e : Option String) :
    (create_audit_event db m rid u s ph sj tj dj st e).docs = db.docs := rfl

theorem create_audit_event_log (db : DB) (m : AuditModule) (rid : String)
    (u s ph : Option String) (sj tj dj : Option JObj) (st : AuditStatus)
    (e : Option String) :
    (create_audit_event db m rid u s ph sj tj dj st e).status_log
      = db.status_log := rfl

theorem create_audit_event_audits (db : DB) (m : AuditModule) (rid : String)
    (u s ph : Option String) (sj tj dj : Option JObj) (st : AuditStatus)
    (e : Option String) :
    (create_audit_event db m rid u s ph sj tj dj st e).audits
      = db.audits ++ [⟨m, rid, u, s, ph, sj, tj, dj, st, e⟩] := rfl

theorem update_audits (db : DB) (i : Nat) (st : IndexedStatus)
    (ref : Option String) :
    (update_doc_indexed_status db i st ref).audits = db.audits := rfl

theorem update_next (db : DB) (i : Nat) (st : IndexedStatus)
    (ref : Option String) :
    (update_doc_indexed_status db i st ref).next_doc_id = db.next_doc_id := rfl

theorem apply_status_update_id (d : DocAsset) (st : IndexedStatus)
    (ref : Option String) : (apply_status_update d st ref).id = d.id := rfl

theorem update_docs_ids (db : DB) (i : Nat) (st : IndexedStatus)
    (ref : Option String) :
    (update_doc_indexed_status db i st ref).docs.map (·.id)
      = db.docs.map (·.id) := by
  simp only [update_doc_indexed_status, List.map_map]
  refine List.map_congr_left (fun d _ => ?_)
  by_cases h : d.id = i <;> simp [h, apply_status_update]

theorem find_doc_update (db : DB) (i j : Nat) (st : IndexedStatus)
    (ref : Option String) :
    find_doc (update_doc_indexed_status db i st ref) j
      = (find_doc db j).map
          (fun d => if d.id = i then apply_status_update d st ref else d) := by
  have hp : ((fun d : DocAsset => decide (d.id = j)) ∘
      (fun d => if d.id = i then apply_status_update d st ref else d))
        = (fun d : DocAsset => decide (d.id = j)) := by
    funext d
    by_cases h : d.id = i <;> simp [h, apply_status_update]
  simp only [find_doc, update_doc_indexed_status, List.find?_map, hp]

theorem find_doc_some_id {db : DB} {i : Nat} {d : DocAsset}
    (h : find_doc db i = some d) : d.id = i := by
  unfold find_doc at h
  have hp := List.find?_some h
  exact of_decide_eq_true hp

theorem find_doc_some_mem {db : DB} {i : Nat} {d : DocAsset}
    (h : find_doc db i = some d) : d ∈ db.docs := by
  unfold find_doc at h
  exact List.mem_of_find?_eq_some h

theorem find_doc_update_self (db : DB) (i : Nat) (st : IndexedStatus)
    (ref : Option String) (d : DocAsset) (h : find_doc db i = some d) :
    find_doc (update_doc_indexed_status db i st ref) i
      = some (apply_status_update d st ref) := by
  have hd : d.id = i := find_doc_some_id h
  rw [find_doc_update, h]
  simp [hd]

theorem find_doc_update_other (db : DB) (i j : Nat) (st : IndexedStatus)
    (ref : Option String) (h : j ≠ i) :
    find_doc (update_doc_indexed_status db i st ref) j = find_doc db j := by
  rw [find_doc_update]
  cases hf : find_doc db j with
  | none => rfl
  | some d =>
    have hd : d.id = j := find_doc_some_id hf
    have : ¬ (d.id = i) := by rw [hd]; exact h
    simp [this]

theorem find_doc_of_mem_nodup (db : DB) (d : DocAsset)
    (hnd : (db.docs.map (·.id)).Nodup) (hm : d ∈ db.docs) :
    find_doc db d.id = some d := by
  cases hf : find_doc db d.id with
  | none =>
    unfold find_doc at hf
    rw [List.find?_eq_none] at hf
    exact absurd (by simp) (hf d hm)
  | some e =>
    have he : e ∈ db.docs := find_doc_some_mem hf
    have hid : e.id = d.id := find_doc_some_id hf
    rw [List.inj_on_of_nodup_map hnd he hm hid]

theorem filter_eq_find_of_nodup (l : List DocAsset) (i : Nat) (d : DocAsset)
    (hnd : (l.map (·.id)).Nodup)
    (hf : l.find? (fun x => decide (x.id = i)) = some d) :
    l.filter (fun x => decide (x.id = i)) = [d] := by
  induction l with
  | nil => simp at hf
  | cons a t ih =>
    simp only [List.map_cons, List.nodup_cons] at hnd
    by_cases ha : a.id = i
    · rw [List.find?_cons_of_pos _ (by simpa using ha)] at hf
      have had : a = d := by simpa using hf
      subst had
      rw [List.filter_cons_of_pos (by simpa using ha)]
      have ht : t.filter (fun x => decide (x.id = i)) = [] := by
        rw [List.filter_eq_nil_iff]
        intro x hx hpx
        have hxi : x.id = i := by simpa using hpx
        exact hnd.1 (List.mem_map.2 ⟨x, hx, by rw [hxi, ha]⟩)
      rw [ht]
    · rw [List.find?_cons_of_neg _ (by simpa using ha)] at hf
      rw [List.filter_cons_of_neg (by simpa using ha)]
      exact ih hnd.2 hf

theorem update_log_self (db : DB) (i : Nat) (st : IndexedStatus)
    (ref : Option String) (d : DocAsset)
    (hnd : (db.docs.map (·.id)).Nodup) (h : find_doc db i = some d) :
    (update_doc_indexed_status db i st ref).status_log
      = db.status_log ++ [⟨i, d.indexed_status, st⟩] := by
  unfold find_doc at h
  have hfil := filter_eq_find_of_nodup db.docs i d hnd h
  simp only [update_doc_indexed_status, hfil, List.map_cons, List.map_nil]

theorem create_doc_asset_fields (db : DB) (fn uri : String) :
    (create_doc_asset db fn uri).1
      = ⟨db.next_doc_id, fn, uri, none, .pending, none, none⟩ ∧
    (create_doc_asset db fn uri).2.docs
      = db.docs ++ [(create_doc_asset db fn uri).1] ∧
    (create_doc_asset db fn uri).2.audits = db.audits ∧
    (create_doc_asset db fn uri).2.status_log = db.status_log ∧
    (create_doc_asset db fn uri).2.next_doc_id = db.next_doc_id + 1 :=
  ⟨rfl, rfl, rfl, rfl, rfl⟩

theorem find_doc_create (db : DB) (fn uri : String)
    (hlt : ∀ d ∈ db.docs, d.id < db.next_doc_id) :
    find_doc (create_doc_asset db fn uri).2 db.next_doc_id
      = some (create_doc_asset db fn uri).1 := by
  simp only [find_doc, create_doc_asset, List.find?_append]
  have h1 : db.docs.find? (fun d => decide (d.id = db.next_doc_id)) = none := by
    rw [List.find?_eq_none]
    intro x hx
    simp only [decide_eq_true_eq]
    exact Nat.ne_of_lt (hlt x hx)
  rw [h1]
  simp

theorem reached_ready_append (log : List StatusTransition)
    (t : StatusTransition) (i : Nat) :
    reached_ready (log ++ [t]) i ↔
      reached_ready log i ∨ (t.doc_id = i ∧ t.new_status = .ready) := by
  unfold reached_ready
  constructor
  · rintro ⟨u, hu, hid, hnew⟩
    rcases List.mem_append.1 hu with h | h
    · exact .inl ⟨u, h, hid, hnew⟩
    · rw [List.mem_singleton.1 h] at hid hnew
      exact .inr ⟨hid, hnew⟩
  · rintro (⟨u, hu, hid, hnew⟩ | ⟨hid, hnew⟩)
    · exact ⟨u, List.mem_append.2 (.inl hu), hid, hnew⟩
    · exact ⟨t, List.mem_append.2 (.inr (List.mem_singleton.2 rfl)), hid, hnew⟩

theorem save_ok_snd (env : UploadEnv) (f : Option String) (rid : String)
    (p : String × String) (h : save_uploaded_file env f rid = .ok p) :
    p.2 = filename_or_unnamed f := by
  unfold save_uploaded_file _save_to_gcs _save_to_local at h
  split at h
  · split at h
    · exact absurd h (by simp)
    · split at h
      · exact absurd h (by simp)
      · injection h with h2
        rw [← h2]
  · split at h
    · exact absurd h (by simp)
    · injection h with h2
      rw [← h2]

theorem upload_local_eval (db : DB) (f : Option String) (rid : String) :
    upload_document local_env db f rid =
      (.ok ⟨rid, db.next_doc_id, filename_or_unnamed f,
          "Document uploaded successfully",
          (check_duplicate_filename db (filename_or_unnamed f)).map (fun ex =>
            "A document with filename '" ++ filename_or_unnamed f ++
            "' already exists (ID: " ++ toString ex.id ++
            "). This upload creates a new record.")⟩,
       { docs := db.docs ++ [⟨db.next_doc_id, filename_or_unnamed f,
           "uploads/" ++ (rid ++ path_suffix (filename_or_unnamed f)), none,
           .pending, none, none⟩]
         audits := db.audits ++ [⟨.module_a, rid, none, none, none,
           some [("filename", .str (filename_or_unnamed f)),
                 ("doc_id", .num db.next_doc_id)], none, none, .success, none⟩]
         status_log := db.status_log
         next_doc_id := db.next_doc_id + 1 }) := by
  unfold upload_document save_uploaded_file local_env _save_to_local
  cases hd : check_duplicate_filename db (filename_or_unnamed f) <;>
    simp [hd, create_doc_asset, create_audit_event,
      show (("local" : String) = "gcs") = False from by decide]

theorem find_doc_audit (db : DB) (m : AuditModule) (rid : String)
    (u s ph : Option String) (sj tj dj : Option JObj) (st : AuditStatus)
    (e : Option String) (j : Nat) :
    find_doc (create_audit_event db m rid u s ph sj tj dj st e) j
      = find_doc db j := rfl

theorem upload_ok_eval (env : UploadEnv) (db : DB) (f : Option String)
    (rid uri fname : String)
    (hs : save_uploaded_file env f rid = .ok (uri, fname))
    (hl : env.doc_ledger_fault = none) :
    upload_document env db f rid =
      (.ok ⟨rid, db.next_doc_id, fname, "Document uploaded successfully",
          (check_duplicate_filename db (filename_or_unnamed f)).map (fun ex =>
            "A document with filename '" ++ fname ++ "' already exists (ID: "
              ++ toString ex.id ++ "). This upload creates a new record.")⟩,
       create_audit_event
         (if env.storage_backend = "gcs" ∧ str_startswith uri "gs://" = true
          then
            match trigger_vertex_import env.vertex_outcome with
            | (true, _) =>
                update_doc_indexed_status
                  (update_doc_indexed_status (create_doc_asset db fname uri).2
                    db.next_doc_id .indexing none)
                  db.next_doc_id .ready (some uri)
            | (false, _) =>
                update_doc_indexed_status
                  (update_doc_indexed_status (create_doc_asset db fname uri).2
                    db.next_doc_id .indexing none)
                  db.next_doc_id .failed none
          else (create_doc_asset db fname uri).2)
         .module_a rid none none none
         (some [("filename", .str fname), ("doc_id", .num db.next_doc_id)])
         none none .success none) := by
  unfold upload_document
  rw [hs, hl]
  split
  next e heq => exact absurd heq (by simp)
  next su fn heq =>
    injection heq with h
    cases h
    cases hd : check_duplicate_filename db (filename_or_unnamed f) <;>
      simp [hd, create_doc_asset]

theorem upload_ok_response (env : UploadEnv) (db : DB) (f : Option String)
    (rid uri fname : String)
    (hs : save_uploaded_file env f rid = .ok (uri, fname))
    (hl : env.doc_ledger_fault = none) :
    (upload_document env db f rid).1 = .ok
      ⟨rid, db.next_doc_id, fname, "Document uploaded successfully",
        (check_duplicate_filename db (filename_or_unnamed f)).map (fun ex =>
          "A document with filename '" ++ fname ++ "' already exists (ID: "
            ++ toString ex.id ++ "). This upload creates a new record.")⟩ := by
  rw [upload_ok_eval env db f rid uri fname hs hl]

theorem upload_ok_audits (env : UploadEnv) (db : DB) (f : Option String)
    (rid uri fname : String)
    (hs : save_uploaded_file env f rid = .ok (uri, fname))
    (hl : env.doc_ledger_fault = none) :
    (upload_document env db f rid).2.audits = db.audits ++
      [⟨.module_a, rid, none, none, none,
        some [("filename", .str fname), ("doc_id", .num db.next_doc_id)],
        none, none, .success, none⟩] := by
  rw [upload_ok_eval env db f rid uri fname hs hl]
  split
  · split <;> simp [create_audit_event, update_audits, create_doc_asset]
  · simp [create_audit_event, create_doc_asset]

theorem upload_ok_docs (env : UploadEnv) (db : DB) (f : Option String)
    (rid uri fname : String)
    (hs : save_uploaded_file env f rid = .ok (uri, fname))
    (hl : env.doc_ledger_fault = none) :
    ∃ g : DocAsset → DocAsset,
      (∀ d, (g d).id = d.id ∧ (g d).filename = d.filename ∧
        (g d).deleted_at = d.deleted_at) ∧
      (upload_document env db f rid).2.docs
        = List.map g (db.docs ++ [⟨db.next_doc_id, fname, uri, none, .pending,
            none, none⟩]) := by
  rw [upload_ok_eval env db f rid uri fname hs hl]
  split
  · split
    · refine ⟨(fun d => if d.id = db.next_doc_id
          then apply_status_update d .ready (some uri) else d) ∘
        (fun d => if d.id = db.next_doc_id
          then apply_status_update d .indexing none else d), fun d => ?_, ?_⟩
      · dsimp only [Function.comp]
        by_cases h : d.id = db.next_doc_id <;>
          simp [h, apply_status_update]
      · simp only [create_audit_event, update_doc_indexed_status,
          create_doc_asset, List.map_map]
    · refine ⟨(fun d => if d.id = db.next_doc_id
          then apply_status_update d .failed none else d) ∘
        (fun d => if d.id = db.next_doc_id
          then apply_status_update d .indexing none else d), fun d => ?_, ?_⟩
      · dsimp only [Function.comp]
        by_cases h : d.id = db.next_doc_id <;>
          simp [h, apply_status_update]
      · simp only [create_audit_event, update_doc_indexed_status,
          create_doc_asset, List.map_map]
  · exact ⟨id, fun d => ⟨rfl, rfl, rfl⟩, by
      simp [create_audit_event, create_doc_asset]⟩

theorem upload_err_save (env : UploadEnv) (db : DB) (f : Option String)
    (rid e : String) (hs : save_uploaded_file env f rid = .error e) :
    upload_document env db f rid = upload_except_handler db rid e := by
  unfold upload_document
  rw [hs]

theorem upload_err_ledger (env : UploadEnv) (db : DB) (f : Option String)
    (rid uri fname e : String)
    (hs : save_uploaded_file env f rid = .ok (uri, fname))
    (hl : env.doc_ledger_fault = some e) :
    upload_document env db f rid = upload_except_handler db rid e := by
  unfold upload_document
  rw [hs, hl]

theorem index_loop_audits (conn : Nat → Option String) (docs : List DocAsset)
    (i : Nat) (db : DB) :
    (index_loop conn docs i db).1.audits = db.audits := by
  induction docs generalizing i db with
  | nil => rfl
  | cons d t ih =>
    cases hc : conn i <;>
      simp [index_loop, trigger_vertex_import, hc, ih, update_audits]

theorem upload_ok_next (env : UploadEnv) (db : DB) (f : Option String)
    (rid uri fname : String)
    (hs : save_uploaded_file env f rid = .ok (uri, fname))
    (hl : env.doc_ledger_fault = none) :
    (upload_document env db f rid).2.next_doc_id = db.next_doc_id + 1 := by
  rw [upload_ok_eval env db f rid uri fname hs hl]
  split
  · split <;> simp [create_audit_event, update_next, create_doc_asset]
  · simp [create_audit_event, create_doc_asset]

theorem check_dup_after_upload (env : UploadEnv) (db : DB) (f : Option String)
    (rid uri : String)
    (hs : save_uploaded_file env f rid = .ok (uri, filename_or_unnamed f))
    (hl : env.doc_ledger_fault = none)
    (hdup : check_duplicate_filename db (filename_or_unnamed f) = none) :
    ∃ d, check_duplicate_filename (upload_document env db f rid).2
        (filename_or_unnamed f) = some d ∧ d.id = db.next_doc_id := by
  obtain ⟨g, hg, hdocs⟩ := upload_ok_docs env db f rid uri _ hs hl
  refine ⟨g ⟨db.next_doc_id, filename_or_unnamed f, uri, none, .pending,
    none, none⟩, ?_, (hg _).1⟩
  unfold check_duplicate_filename at hdup ⊢
  rw [hdocs, List.map_append, List.filter_append]
  have hnil : db.docs.filter
      (fun d => decide (d.filename = filename_or_unnamed f ∧
        d.deleted_at.isNone = true)) = [] :=
    List.head?_eq_none_iff.1 hdup
  have h1 : (List.map g db.docs).filter
      (fun d => decide (d.filename = filename_or_unnamed f ∧
        d.deleted_at.isNone = true)) = [] := by
    rw [List.filter_eq_nil_iff]
    intro x hx hp
    obtain ⟨d, hd, rfl⟩ := List.mem_map.1 hx
    rw [decide_eq_true_eq, (hg d).2.1, (hg d).2.2] at hp
    have hnp := List.filter_eq_nil_iff.1 hnil d hd
    rw [decide_eq_true_eq] at hnp
    exact hnp hp
  rw [h1]
  have h2 : (List.map g [(⟨db.next_doc_id, filename_or_unnamed f, uri, none,
      .pending, none, none⟩ : DocAsset)]).filter
        (fun d => decide (d.filename = filename_or_unnamed f ∧
          d.deleted_at.isNone = true))
      = [g ⟨db.next_doc_id, filename_or_unnamed f, uri, none, .pending,
          none, none⟩] := by
    rw [List.map_singleton, List.filter_cons_of_pos]
    · rfl
    · rw [decide_eq_true_eq, (hg _).2.1, (hg _).2.2]
      exact ⟨rfl, rfl⟩
  rw [h2]
  rfl

theorem index_loop_sum (conn : Nat → Option String) (docs : List DocAsset)
    (i : Nat) (db : DB) :
    (index_loop conn docs i db).2.1 + (index_loop conn docs i db).2.2.1
      = docs.length := by
  induction docs generalizing i db with
  | nil => rfl
  | cons d t ih =>
    cases hc : conn i with
    | none =>
      have := ih (i + 1) (update_doc_indexed_status
        (update_doc_indexed_status db d.id .indexing none)
        d.id .ready (some d.storage_uri))
      simp only [index_loop, trigger_vertex_import, hc, List.length_cons]
      omega
    | some m =>
      have := ih (i + 1) (update_doc_indexed_status
        (update_doc_indexed_status db d.id .indexing none)
        d.id .failed none)
      simp only [index_loop, trigger_vertex_import, hc, List.length_cons]
      omega

theorem index_loop_failed (conn : Nat → Option String) (docs : List DocAsset)
    (i : Nat) (db : DB) :
    (index_loop conn docs i db).2.2.1
      = (List.range' i docs.length).countP (fun j => (conn j).isSome) := by
  induction docs generalizing i db with
  | nil => rfl
  | cons d t ih =>
    rw [List.length_cons, List.range'_succ]
    cases hc : conn i with
    | none =>
      rw [List.countP_cons_of_neg _ _ (by simp [hc])]
      simp only [index_loop, trigger_vertex_import, hc]
      exact ih (i + 1) _
    | some m =>
      rw [List.countP_cons_of_pos _ _ (by simp [hc])]
      simp only [index_loop, trigger_vertex_import, hc]
      rw [ih (i + 1) _]

theorem index_loop_details_len (conn : Nat → Option String)
    (docs : List DocAsset) (i : Nat) (db : DB) :
    (index_loop conn docs i db).2.2.2.length = docs.length := by
  induction docs generalizing i db with
  | nil => rfl
  | cons d t ih =>
    cases hc : conn i <;>
      simp only [index_loop, trigger_vertex_import, hc, List.length_cons,
        ih (i + 1) _]

theorem index_loop_details (conn : Nat → Option String)
    (docs : List DocAsset) (i : Nat) (db : DB) :
    ∀ j d, docs.get? j = some d →
      (index_loop conn docs i db).2.2.2.get? j = some
        ⟨d.id, d.filename,
         if (conn (i + j)).isNone then "ready" else "failed",
         conn (i + j)⟩ := by
  induction docs generalizing i db with
  | nil => intro j d h; simp at h
  | cons a t ih =>
    intro j d h
    cases j with
    | zero =>
      have ha : a = d := by simpa using h
      subst ha
      cases hc : conn i <;>
        simp [index_loop, trigger_vertex_import, hc]
    | succ jj =>
      have ht : t.get? jj = some d := by simpa using h
      cases hc : conn i with
      | none =>
        have := ih (i + 1) (update_doc_indexed_status
          (update_doc_indexed_status db a.id .indexing none)
          a.id .ready (some a.storage_uri)) jj d ht
        simp only [index_loop, trigger_vertex_import, hc, List.get?_cons_succ]
        rw [show i + (jj + 1) = i + 1 + jj from by omega]
        exact this
      | some m =>
        have := ih (i + 1) (update_doc_indexed_status
          (update_doc_indexed_status db a.id .indexing none)
          a.id .failed none) jj d ht
        simp only [index_loop, trigger_vertex_import, hc, List.get?_cons_succ]
        rw [show i + (jj + 1) = i + 1 + jj from by omega]
        exact this

theorem index_loop_find (conn : Nat → Option String) (docs : List DocAsset)
    (i : Nat) (db : DB)
    (hnd : (docs.map (·.id)).Nodup)
    (hmem : ∀ d ∈ docs, find_doc db d.id = some d) :
    (∀ j d, docs.get? j = some d →
      find_doc (index_loop conn docs i db).1 d.id = some
        (if (conn (i + j)).isNone
         then ⟨d.id, d.filename, d.storage_uri, d.uploaded_at, .ready,
               some d.storage_uri, d.deleted_at⟩
         else ⟨d.id, d.filename, d.storage_uri, d.uploaded_at, .failed,
               d.datastore_ref, d.deleted_at⟩)) ∧
    (∀ k, (∀ d ∈ docs, d.id ≠ k) →
      find_doc (index_loop conn docs i db).1 k = find_doc db k) := by
  induction docs generalizing i db with
  | nil => exact ⟨fun j d h => by simp at h, fun k _ => rfl⟩
  | cons a t ih =>
    simp only [List.map_cons, List.nodup_cons] at hnd
    have hfa : find_doc db a.id = some a := hmem a (List.mem_cons_self a t)
    have hfr : ∀ d ∈ t, d.id ≠ a.id :=
      fun d hd he => hnd.1 (List.mem_map.2 ⟨d, hd, he⟩)
    cases hc : conn i with
    | none =>
      have hfind_a : find_doc (update_doc_indexed_status
          (update_doc_indexed_status db a.id .indexing none)
          a.id .ready (some a.storage_uri)) a.id
          = some (apply_status_update (apply_status_update a .indexing none)
              .ready (some a.storage_uri)) :=
        find_doc_update_self _ _ _ _ _ (find_doc_update_self _ _ _ _ _ hfa)
      have hother : ∀ k, k ≠ a.id → find_doc (update_doc_indexed_status
          (update_doc_indexed_status db a.id .indexing none)
          a.id .ready (some a.storage_uri)) k = find_doc db k := fun k hk => by
        rw [find_doc_update_other _ _ _ _ _ hk,
          find_doc_update_other _ _ _ _ _ hk]
      have hmem' : ∀ d ∈ t, find_doc (update_doc_indexed_status
          (update_doc_indexed_status db a.id .indexing none)
          a.id .ready (some a.storage_uri)) d.id = some d := fun d hd => by
        rw [hother d.id (hfr d hd)]
        exact hmem d (List.mem_cons_of_mem a hd)
      obtain ⟨ihA, ihB⟩ := ih (i + 1) _ hnd.2 hmem'
      constructor
      · intro j d h
        cases j with
        | zero =>
          have ha : a = d := by simpa using h
          subst ha
          simp only [index_loop, trigger_vertex_import, hc]
          rw [ihB a.id hfr, hfind_a]
          simp [hc, apply_status_update]
        | succ jj =>
          have ht : t.get? jj = some d := by simpa using h
          have := ihA jj d ht
          simp only [index_loop, trigger_vertex_import, hc]
          rw [show i + (jj + 1) = i + 1 + jj from by omega]
          exact this
      · intro k hk
        have hka : k ≠ a.id := fun he => (hk a (List.mem_cons_self a t)) he.symm
        simp only [index_loop, trigger_vertex_import, hc]
        rw [ihB k (fun d hd => hk d (List.mem_cons_of_mem a hd)),
          hother k hka]
    | some m =>
      have hfind_a : find_doc (update_doc_indexed_status
          (update_doc_indexed_status db a.id .indexing none)
          a.id .failed none) a.id
          = some (apply_status_update (apply_status_update a .indexing none)
              .failed none) :=
        find_doc_update_self _ _ _ _ _ (find_doc_update_self _ _ _ _ _ hfa)
      have hother : ∀ k, k ≠ a.id → find_doc (update_doc_indexed_status
          (update_doc_indexed_status db a.id .indexing none)
          a.id .failed none) k = find_doc db k := fun k hk => by
        rw [find_doc_update_other _ _ _ _ _ hk,
          find_doc_update_other _ _ _ _ _ hk]
      have hmem' : ∀ d ∈ t, find_doc (update_doc_indexed_status
          (update_doc_indexed_status db a.id .indexing none)
          a.id .failed none) d.id = some d := fun d hd => by
        rw [hother d.id (hfr d hd)]
        exact hmem d (List.mem_cons_of_mem a hd)
      obtain ⟨ihA, ihB⟩ := ih (i + 1) _ hnd.2 hmem'
      constructor
      · intro j d h
        cases j with
        | zero =>
          have ha : a = d := by simpa using h
          subst ha
          simp only [index_loop, trigger_vertex_import, hc]
          rw [ihB a.id hfr, hfind_a]
          simp [hc, apply_status_update]
        | succ jj =>
          have ht : t.get? jj = some d := by simpa using h
          have := ihA jj d ht
          simp only [index_loop, trigger_vertex_import, hc]
          rw [show i + (jj + 1) = i + 1 + jj from by omega]
          exact this
      · intro k hk
        have hka : k ≠ a.id := fun he => (hk a (List.mem_cons_self a t)) he.symm
        simp only [index_loop, trigger_vertex_import, hc]
        rw [ihB k (fun d hd => hk d (List.mem_cons_of_mem a hd)),
          hother k hka]

theorem inv_audit (db : DB) (m : AuditModule) (rid : String)
    (u s ph : Option String) (sj tj dj : Option JObj) (st : AuditStatus)
    (e : Option String) (h : Inv db) :
    Inv (create_audit_event db m rid u s ph sj tj dj st e) :=
  ⟨h.nodup, h.lt_next, h.log_lt_next, h.log_legal, h.ref_ready,
   h.ready_reached⟩

theorem Inv.create (db : DB) (h : Inv db) (fn uri : String) :
    Inv (create_doc_asset db fn uri).2 := by
  refine ⟨?_, ?_, ?_, ?_, ?_, ?_⟩
  · simp only [create_doc_asset, List.map_append, List.map_cons,
      List.map_nil]
    rw [List.nodup_append]
    refine ⟨h.nodup, List.nodup_singleton _, ?_⟩
    intro a ha hb
    obtain ⟨x, hx, rfl⟩ := List.mem_map.1 ha
    rw [List.mem_singleton] at hb
    exact absurd hb (Nat.ne_of_lt (h.lt_next x hx))
  · intro x hx
    simp only [create_doc_asset] at hx ⊢
    rcases List.mem_append.1 hx with h1 | h1
    · exact Nat.lt_succ_of_lt (h.lt_next x h1)
    · rw [List.mem_singleton.1 h1]
      exact Nat.lt_succ_self _
  · intro t ht
    exact Nat.lt_succ_of_lt (h.log_lt_next t ht)
  · exact h.log_legal
  · intro x hx
    simp only [create_doc_asset] at hx
    rcases List.mem_append.1 hx with h1 | h1
    · exact h.ref_ready x h1
    · rw [List.mem_singleton.1 h1]
      simp
  · intro x hx
    simp only [create_doc_asset] at hx
    rcases List.mem_append.1 hx with h1 | h1
    · exact h.ready_reached x h1
    · rw [List.mem_singleton.1 h1]
      constructor
      · intro hcon
        simp at hcon
      · rintro ⟨t, htl, hdt, _⟩
        exact absurd hdt (Nat.ne_of_lt (h.log_lt_next t htl))

theorem Inv.update (db : DB) (h : Inv db) (i : Nat) (st : IndexedStatus)
    (ref : Option String) (d : DocAsset) (hf : find_doc db i = some d)
    (hcase : (d.indexed_status = .pending ∧ st = .indexing ∧ ref = none) ∨
      (d.indexed_status = .indexing ∧ st = .ready ∧ ∃ r, ref = some r) ∨
      (d.indexed_status = .indexing ∧ st = .failed ∧ ref = none)) :
    Inv (update_doc_indexed_status db i st ref) := by
  have hid : d.id = i := find_doc_some_id hf
  have hdm : d ∈ db.docs := find_doc_some_mem hf
  have hlog := update_log_self db i st ref d h.nodup hf
  have hxd : ∀ x ∈ db.docs, x.id = i → x = d := fun x hx hxi =>
    List.inj_on_of_nodup_map h.nodup hx hdm (by rw [hxi, hid])
  have dref : d.indexed_status ≠ .ready → d.datastore_ref = none := by
    intro hne
    cases href : d.datastore_ref with
    | none => rfl
    | some r => exact absurd ((h.ref_ready d hdm).1 (by simp [href])) hne
  have hdocs : (update_doc_indexed_status db i st ref).docs
      = db.docs.map
        (fun x => if x.id = i then apply_status_update x st ref else x) := rfl
  refine ⟨?_, ?_, ?_, ?_, ?_, ?_⟩
  · rw [update_docs_ids]
    exact h.nodup
  · intro x' hx'
    rw [hdocs] at hx'
    obtain ⟨x, hx, rfl⟩ := List.mem_map.1 hx'
    rw [update_next]
    have hgid : (if x.id = i then apply_status_update x st ref else x).id
        = x.id := by
      by_cases hxi : x.id = i <;> simp [hxi, apply_status_update]
    rw [hgid]
    exact h.lt_next x hx
  · intro t ht
    rw [hlog] at ht
    rw [update_next]
    rcases List.mem_append.1 ht with h1 | h1
    · exact h.log_lt_next t h1
    · rw [List.mem_singleton.1 h1]
      show i < db.next_doc_id
      rw [← hid]
      exact h.lt_next d hdm
  · intro t ht
    rw [hlog] at ht
    rcases List.mem_append.1 ht with h1 | h1
    · exact h.log_legal t h1
    · rw [List.mem_singleton.1 h1]
      rcases hcase with ⟨h1', h2', _⟩ | ⟨h1', h2', _⟩ | ⟨h1', h2', _⟩
      · exact .inl ⟨h1', h2'⟩
      · exact .inr ⟨h1', .inl h2'⟩
      · exact .inr ⟨h1', .inr h2'⟩
  · intro x' hx'
    rw [hdocs] at hx'
    obtain ⟨x, hx, rfl⟩ := List.mem_map.1 hx'
    by_cases hxi : x.id = i
    · have hxe := hxd x hx hxi
      subst hxe
      rw [if_pos hid]
      rcases hcase with ⟨h1', h2', h3'⟩ | ⟨h1', h2', ⟨r, h3'⟩⟩ | ⟨h1', h2', h3'⟩ <;>
        subst h2' <;> subst h3'
      · have hdr : x.datastore_ref = none := dref (by simp [h1'])
        simp [apply_status_update, hdr]
      · simp [apply_status_update]
      · have hdr : x.datastore_ref = none := dref (by simp [h1'])
        simp [apply_status_update, hdr]
    · rw [if_neg hxi]
      exact h.ref_ready x hx
  · intro x' hx'
    rw [hdocs] at hx'
    obtain ⟨x, hx, rfl⟩ := List.mem_map.1 hx'
    rw [hlog]
    by_cases hxi : x.id = i
    · have hxe := hxd x hx hxi
      subst hxe
      rw [if_pos hid]
      rw [reached_ready_append]
      have hrr := h.ready_reached x hdm
      rcases hcase with ⟨h1', h2', h3'⟩ | ⟨h1', h2', ⟨r, h3'⟩⟩ | ⟨h1', h2', h3'⟩ <;>
        subst h2' <;> subst h3'
      · have hnr : ¬ reached_ready db.status_log x.id := fun hr => by
          have := hrr.2 hr
          rw [h1'] at this
          simp at this
        rw [hid] at hnr
        simp [apply_status_update, hnr, hid]
      · simp [apply_status_update, hid]
      · have hnr : ¬ reached_ready db.status_log x.id := fun hr => by
          have := hrr.2 hr
          rw [h1'] at this
          simp at this
        rw [hid] at hnr
        simp [apply_status_update, hnr, hid]
    · rw [if_neg hxi]
      rw [reached_ready_append]
      exact (h.ready_reached x hx).trans
        (or_iff_left (fun hc => hxi hc.1.symm)).symm

theorem inv_index_loop (conn : Nat → Option String) (docs : List DocAsset)
    (i : Nat) (db : DB) (h : Inv db)
    (hmem : ∀ d ∈ docs,
      find_doc db d.id = some d ∧ d.indexed_status = .pending)
    (hnd : (docs.map (·.id)).Nodup) :
    Inv (index_loop conn docs i db).1 := by
  induction docs generalizing i db with
  | nil => exact h
  | cons a t ih =>
    simp only [List.map_cons, List.nodup_cons] at hnd
    obtain ⟨hfa, hpa⟩ := hmem a (List.mem_cons_self a t)
    have hA : Inv (update_doc_indexed_status db a.id .indexing none) :=
      Inv.update db h a.id .indexing none a hfa (.inl ⟨hpa, rfl, rfl⟩)
    have hfA := find_doc_update_self db a.id .indexing none a hfa
    have hfr : ∀ d ∈ t, d.id ≠ a.id :=
      fun d hd he => hnd.1 (List.mem_map.2 ⟨d, hd, he⟩)
    cases hc : conn i with
    | none =>
      have hB : Inv (update_doc_indexed_status
          (update_doc_indexed_status db a.id .indexing none)
          a.id .ready (some a.storage_uri)) :=
        Inv.update _ hA a.id .ready (some a.storage_uri) _ hfA
          (.inr (.inl ⟨rfl, rfl, ⟨a.storage_uri, rfl⟩⟩))
      have hmem' : ∀ d ∈ t, find_doc (update_doc_indexed_status
          (update_doc_indexed_status db a.id .indexing none)
          a.id .ready (some a.storage_uri)) d.id = some d ∧
          d.indexed_status = .pending := by
        intro d hd
        rw [find_doc_update_other _ _ _ _ _ (hfr d hd),
          find_doc_update_other _ _ _ _ _ (hfr d hd)]
        exact hmem d (List.mem_cons_of_mem a hd)
      simp only [index_loop, trigger_vertex_import, hc]
      exact ih (i + 1) _ hB hmem' hnd.2
    | some m =>
      have hB : Inv (update_doc_indexed_status
          (update_doc_indexed_status db a.id .indexing none)
          a.id .failed none) :=
        Inv.update _ hA a.id .failed none _ hfA
          (.inr (.inr ⟨rfl, rfl, rfl⟩))
      have hmem' : ∀ d ∈ t, find_doc (update_doc_indexed_status
          (update_doc_indexed_status db a.id .indexing none)
          a.id .failed none) d.id = some d ∧
          d.indexed_status = .pending := by
        intro d hd
        rw [find_doc_update_other _ _ _ _ _ (hfr d hd),
          find_doc_update_other _ _ _ _ _ (hfr d hd)]
        exact hmem d (List.mem_cons_of_mem a hd)
      simp only [index_loop, trigger_vertex_import, hc]
      exact ih (i + 1) _ hB hmem' hnd.2

theorem inv_upload (env : UploadEnv) (db : DB) (f : Option String)
    (rid : String) (h : Inv db) : Inv (upload_document env db f rid).2 := by
  cases hsv : save_uploaded_file env f rid with
  | error e =>
    rw [upload_err_save env db f rid e hsv]
    exact ⟨h.nodup, h.lt_next, h.log_lt_next, h.log_legal, h.ref_ready,
      h.ready_reached⟩
  | ok p =>
    obtain ⟨uri, fname⟩ := p
    cases hl : env.doc_ledger_fault with
    | some e =>
      rw [upload_err_ledger env db f rid uri fname e hsv hl]
      exact ⟨h.nodup, h.lt_next, h.log_lt_next, h.log_legal, h.ref_ready,
        h.ready_reached⟩
    | none =>
      rw [upload_ok_eval env db f rid uri fname hsv hl]
      have h1 : Inv (create_doc_asset db fname uri).2 := Inv.create db h fname uri
      have hfind1 := find_doc_create db fname uri h.lt_next
      apply inv_audit
      split
      · have hA : Inv (update_doc_indexed_status
            (create_doc_asset db fname uri).2 db.next_doc_id
            .indexing none) :=
          Inv.update _ h1 db.next_doc_id .indexing none _ hfind1
            (.inl ⟨rfl, rfl, rfl⟩)
        have hfA := find_doc_update_self (create_doc_asset db fname uri).2
          db.next_doc_id .indexing none _ hfind1
        split
        · exact Inv.update _ hA db.next_doc_id .ready (some uri) _ hfA
            (.inr (.inl ⟨rfl, rfl, ⟨uri, rfl⟩⟩))
        · exact Inv.update _ hA db.next_doc_id .failed none _ hfA
            (.inr (.inr ⟨rfl, rfl, rfl⟩))
      · exact h1

theorem inv_status (db : DB) (rid : String) (fault : Option String)
    (h : Inv db) : Inv (get_docs_status db rid fault).2 := by
  cases fault <;>
    exact ⟨h.nodup, h.lt_next, h.log_lt_next, h.log_legal, h.ref_ready,
      h.ready_reached⟩

theorem inv_query (sha : String → String) (db : DB) (q rid : String)
    (h : Inv db) : Inv (query_documents sha db q rid).2 :=
  ⟨h.nodup, h.lt_next, h.log_lt_next, h.log_legal, h.ref_ready,
   h.ready_reached⟩

theorem inv_index (db : DB) (rid : String) (did : Option Nat)
    (conn : Nat → Option String) (h : Inv db) :
    Inv (trigger_indexing db rid did conn).2 := by
  have hmem : ∀ d ∈ get_pending_gcs_docs db did,
      find_doc db d.id = some d ∧ d.indexed_status = .pending := by
    intro d hd
    unfold get_pending_gcs_docs at hd
    have hmemdb : d ∈ db.docs := List.mem_of_mem_filter hd
    have hcond := (List.mem_filter.1 hd).2
    simp only [Bool.and_eq_true, decide_eq_true_eq] at hcond
    exact ⟨find_doc_of_mem_nodup db d h.nodup hmemdb, hcond.1.1.2⟩
  have hsub : ((get_pending_gcs_docs db did).map (·.id)).Nodup := by
    unfold get_pending_gcs_docs
    exact h.nodup.sublist (List.Sublist.map _ (List.filter_sublist _))
  have hloop := inv_index_loop conn (get_pending_gcs_docs db did) 0 db h
    hmem hsub
  exact ⟨hloop.nodup, hloop.lt_next, hloop.log_lt_next, hloop.log_legal,
    hloop.ref_ready, hloop.ready_reached⟩

theorem reachable_inv (db : DB) (h : Reachable db) : Inv db := by
  induction h with
  | init =>
    refine ⟨?_, ?_, ?_, ?_, ?_, ?_⟩ <;> simp [DB.empty]
  | upload env f rid _ ih => exact inv_upload env _ f rid ih
  | status_list rid fault _ ih => exact inv_status _ rid fault ih
  | query sha q rid _ ih => exact inv_query sha _ q rid ih
  | index rid did conn _ ih => exact inv_index _ rid did conn ih

/-! ## Claims -/

/-- **C1** (counterexample): the claim "the raw free-text query is never
stored in any field of the audit event" is false — for the query
"confidential customer text", the single audit event appended by
`query_documents` stores that raw text verbatim in its `sources_json`
field. -/
theorem c1_raw_query_stored_counterexample :
    ∃ e ∈ (query_documents (fun _ => "d1gestd1gestd1ge") DB.empty
        "confidential customer text" "req-1").2.audits,
      e.sources_json = some [("query", .str "confidential customer text"),
        ("citations_count", .num 0)] :=
  ⟨_, List.mem_singleton.2 rfl, rfl⟩

/-- **C1** (amended, proved): every call to the query operation appends
exactly one audit event whose `prompt_hash` is the truncated one-way
digest of the input and whose `sources_json` records a zero citation
count — but that `sources_json` also stores the raw free-text query
itself, alongside the digest. -/
theorem c1_query_audit_contents (sha256hex : String → String) (db : DB)
    (q rid : String) :
    (query_documents sha256hex db q rid).2.audits
      = db.audits ++ [⟨.module_a, rid, none, none,
          some (hash_prompt sha256hex q),
          some [("query", .str q), ("citations_count", .num 0)],
          none, none, .success, none⟩] ∧
    (query_documents sha256hex db q rid).1
      = ⟨rid, "Information not found in internal records.", []⟩ :=
  ⟨rfl, rfl⟩

/-- **C5** (counterexample): the claim that the local storage address
"preserves the original filename (the original name is recoverable from
the address, not just its extension)" is false — the two distinct
filenames `report.pdf` and `summary.pdf`, uploaded under the same
correlation id, are stored at the identical address `uploads/r-1.pdf`,
so the original name cannot be recovered from the address. -/
theorem c5_extension_only_counterexample :
    _save_to_local none "report.pdf" "r-1"
      = .ok ("uploads/r-1.pdf", "report.pdf") ∧
    _save_to_local none "summary.pdf" "r-1"
      = .ok ("uploads/r-1.pdf", "summary.pdf") ∧
    "report.pdf" ≠ "summary.pdf" :=
  ⟨rfl, rfl, by decide⟩

/-- **C5** (amended, proved): for every upload handled by the local
storage backend, the storage address is built from the fresh correlation
identifier plus only the original filename's *extension*, while the
ledger row stores the unmodified original filename. -/
theorem c5_local_address_extension_only (db : DB) (f : Option String)
    (rid : String) :
    _save_to_local none (filename_or_unnamed f) rid
      = .ok ("uploads/" ++ (rid ++ path_suffix (filename_or_unnamed f)),
          filename_or_unnamed f) ∧
    ∃ doc : DocAsset,
      (upload_document local_env db f rid).2.docs = db.docs ++ [doc] ∧
      doc.filename = filename_or_unnamed f ∧
      doc.storage_uri
        = "uploads/" ++ (rid ++ path_suffix (filename_or_unnamed f)) := by
  refine ⟨rfl, ?_⟩
  rw [upload_local_eval]
  exact ⟨_, rfl, rfl, rfl⟩

/-- **C8** (proved): a batch indexing call that finds zero eligible
documents returns `triggered = succeeded = failed = 0` with an empty
details list, leaves the document rows untouched, and still appends
exactly one SUCCESS audit event. -/
theorem c8_zero_eligible_batch (db : DB) (rid : String) (did : Option Nat)
    (conn : Nat → Option String) (h : get_pending_gcs_docs db did = []) :
    (trigger_indexing db rid did conn).1.triggered = 0 ∧
    (trigger_indexing db rid did conn).1.succeeded = 0 ∧
    (trigger_indexing db rid did conn).1.failed = 0 ∧
    (trigger_indexing db rid did conn).1.details = [] ∧
    (trigger_indexing db rid did conn).2.audits = db.audits ++
      [⟨.module_a, rid, none, none, none,
        some [("triggered", .num 0), ("succeeded", .num 0),
              ("failed", .num 0)], none, none, .success, none⟩] ∧
    (trigger_indexing db rid did conn).2.docs = db.docs := by
  simp [trigger_indexing, h, index_loop, create_audit_event]

/-- Witness for `c8_zero_eligible_batch`: the empty store has no eligible
documents, and the conclusion holds there. -/
theorem c8_zero_eligible_batch_witness :
    get_pending_gcs_docs DB.empty none = [] ∧
    ((trigger_indexing DB.empty "r-0" none (fun _ => none)).1.triggered = 0 ∧
     (trigger_indexing DB.empty "r-0" none (fun _ => none)).1.succeeded = 0 ∧
     (trigger_indexing DB.empty "r-0" none (fun _ => none)).1.failed = 0 ∧
     (trigger_indexing DB.empty "r-0" none (fun _ => none)).1.details = [] ∧
     (trigger_indexing DB.empty "r-0" none (fun _ => none)).2.audits
       = DB.empty.audits ++ [⟨.module_a, "r-0", none, none, none,
           some [("triggered", .num 0), ("succeeded", .num 0),
                 ("failed", .num 0)], none, none, .success, none⟩] ∧
     (trigger_indexing DB.empty "r-0" none (fun _ => none)).2.docs
       = DB.empty.docs) :=
  ⟨rfl, c8_zero_eligible_batch DB.empty "r-0" none (fun _ => none) rfl⟩

/-- **C10** (proved): an upload with no client filename (missing or
empty) still succeeds, and the string "unnamed" is the response
filename, the stored row's filename, and the name used by the duplicate
check. -/
theorem c10_unnamed_filename_default (db : DB) (rid : String)
    (f : Option String) (hf : f = none ∨ f = some "") :
    ∃ resp, (upload_document local_env db f rid).1 = .ok resp ∧
      resp.filename = "unnamed" ∧
      (∃ doc, (upload_document local_env db f rid).2.docs = db.docs ++ [doc] ∧
        doc.filename = "unnamed" ∧ doc.id = resp.doc_id) ∧
      resp.duplicate_warning = (check_duplicate_filename db "unnamed").map
        (fun ex => "A document with filename 'unnamed' already exists (ID: "
          ++ toString ex.id ++ "). This upload creates a new record.") := by
  have hn : filename_or_unnamed f = "unnamed" := by
    rcases hf with rfl | rfl <;> rfl
  have he := upload_local_eval db f rid
  rw [hn] at he
  exact ⟨_, by rw [he], rfl, ⟨_, by rw [he], rfl, rfl⟩, rfl⟩

/-- Witness for `c10_unnamed_filename_default` at a concrete input. -/
theorem c10_unnamed_filename_default_witness :
    ((none : Option String) = none ∨ (none : Option String) = some "") ∧
    (∃ resp, (upload_document local_env DB.empty none "r-7").1 = .ok resp ∧
      resp.filename = "unnamed" ∧
      (∃ doc, (upload_document local_env DB.empty none "r-7").2.docs
          = DB.empty.docs ++ [doc] ∧
        doc.filename = "unnamed" ∧ doc.id = resp.doc_id) ∧
      resp.duplicate_warning
        = (check_duplicate_filename DB.empty "unnamed").map
          (fun ex => "A document with filename 'unnamed' already exists (ID: "
            ++ toString ex.id ++ "). This upload creates a new record.")) :=
  ⟨Or.inl rfl, c10_unnamed_filename_default DB.empty "r-7" none (Or.inl rfl)⟩

/-- **C6** (proved): when the storage write and ledger insert succeed but
the indexing connector fails, the uploaded document ends with status
FAILED, the upload still returns a success response carrying the
assigned document id, and the single audit event appended for the upload
has status SUCCESS. -/
theorem c6_connector_fault_absorbed (db : DB) (f : Option String)
    (rid bucket err : String)
    (hlt : ∀ d ∈ db.docs, d.id < db.next_doc_id) :
    ∃ resp, (upload_document (gcs_env bucket (some err)) db f rid).1
        = .ok resp ∧
      resp.doc_id = db.next_doc_id ∧
      (find_doc (upload_document (gcs_env bucket (some err)) db f rid).2
          db.next_doc_id).map (fun d => d.indexed_status) = some .failed ∧
      ∃ e, (upload_document (gcs_env bucket (some err)) db f rid).2.audits
        = db.audits ++ [e] ∧ e.status = .success := by
  have hs : save_uploaded_file (gcs_env bucket (some err)) f rid
      = .ok ("gs://" ++ bucket ++ "/" ++ ("docs/" ++ rid ++ "/"
          ++ filename_or_unnamed f), filename_or_unnamed f) := rfl
  have hsw : str_startswith ("gs://" ++ bucket ++ "/" ++ ("docs/" ++ rid ++ "/"
      ++ filename_or_unnamed f)) "gs://" = true := by
    rw [String.append_assoc, String.append_assoc]
    exact str_startswith_append _ _
  refine ⟨_, upload_ok_response _ _ _ _ _ _ hs rfl, rfl, ?_,
    ⟨_, upload_ok_audits _ _ _ _ _ _ hs rfl, rfl⟩⟩
  rw [upload_ok_eval _ _ _ _ _ _ hs rfl]
  dsimp only
  rw [find_doc_audit, if_pos ⟨rfl, hsw⟩]
  dsimp only [gcs_env, trigger_vertex_import]
  rw [find_doc_update_self _ _ _ _ _ (find_doc_update_self _ _ _ _ _
    (find_doc_create db (filename_or_unnamed f) _ hlt))]
  rfl

/-- Witness for `c6_connector_fault_absorbed` at a concrete input. -/
theorem c6_connector_fault_absorbed_witness :
    (∀ d ∈ DB.empty.docs, d.id < DB.empty.next_doc_id) ∧
    (∃ resp, (upload_document (gcs_env "bkt" (some "timeout")) DB.empty
        (some "a.pdf") "r-9").1 = .ok resp ∧
      resp.doc_id = DB.empty.next_doc_id ∧
      (find_doc (upload_document (gcs_env "bkt" (some "timeout")) DB.empty
          (some "a.pdf") "r-9").2 DB.empty.next_doc_id).map
        (fun d => d.indexed_status) = some .failed ∧
      ∃ e, (upload_document (gcs_env "bkt" (some "timeout")) DB.empty
          (some "a.pdf") "r-9").2.audits = DB.empty.audits ++ [e] ∧
        e.status = .success) :=
  ⟨fun d hd => absurd hd (by simp [DB.empty]),
   c6_connector_fault_absorbed DB.empty (some "a.pdf") "r-9" "bkt" "timeout"
     (fun d hd => absurd hd (by simp [DB.empty]))⟩

/-- **C7** (proved): duplicate filenames never block an upload — two
uploads of the same filename into a store with no active document of
that name both succeed with distinct document ids, the first response's
`duplicate_warning` is null, and the second response's warning is
non-null and references the first document's id. -/
theorem c7_duplicates_allowed_and_warned (env1 env2 : UploadEnv) (db : DB)
    (f : Option String) (rid1 rid2 uri1 uri2 : String)
    (hs1 : save_uploaded_file env1 f rid1 = .ok (uri1, filename_or_unnamed f))
    (hl1 : env1.doc_ledger_fault = none)
    (hs2 : save_uploaded_file env2 f rid2 = .ok (uri2, filename_or_unnamed f))
    (hl2 : env2.doc_ledger_fault = none)
    (hdup : check_duplicate_filename db (filename_or_unnamed f) = none) :
    ∃ resp1 resp2,
      (upload_document env1 db f rid1).1 = .ok resp1 ∧
      (upload_document env2 (upload_document env1 db f rid1).2 f rid2).1
        = .ok resp2 ∧
      resp1.doc_id = db.next_doc_id ∧
      resp2.doc_id = db.next_doc_id + 1 ∧
      resp1.doc_id ≠ resp2.doc_id ∧
      resp1.duplicate_warning = none ∧
      resp2.duplicate_warning = some ("A document with filename '"
        ++ filename_or_unnamed f ++ "' already exists (ID: "
        ++ toString db.next_doc_id ++ "). This upload creates a new record.") := by
  obtain ⟨d1, hd1, hd1id⟩ := check_dup_after_upload env1 db f rid1 uri1 hs1 hl1 hdup
  have h1 := upload_ok_response env1 db f rid1 uri1 _ hs1 hl1
  have h2 := upload_ok_response env2 (upload_document env1 db f rid1).2 f rid2
    uri2 _ hs2 hl2
  have hnx := upload_ok_next env1 db f rid1 uri1 _ hs1 hl1
  rw [hdup] at h1
  rw [hd1, hnx] at h2
  refine ⟨_, _, h1, h2, rfl, rfl, Nat.ne_of_lt (Nat.lt_succ_self _), rfl, ?_⟩
  simp only [Option.map_some', hd1id]

/-- Witness for `c7_duplicates_allowed_and_warned` at a concrete input:
two local-backend uploads of `a.pdf` into the empty store. -/
theorem c7_duplicates_allowed_and_warned_witness :
    (save_uploaded_file local_env (some "a.pdf") "r-1"
      = .ok ("uploads/r-1.pdf", filename_or_unnamed (some "a.pdf"))) ∧
    (check_duplicate_filename DB.empty
      (filename_or_unnamed (some "a.pdf")) = none) ∧
    (∃ resp1 resp2,
      (upload_document local_env DB.empty (some "a.pdf") "r-1").1
        = .ok resp1 ∧
      (upload_document local_env
        (upload_document local_env DB.empty (some "a.pdf") "r-1").2
        (some "a.pdf") "r-2").1 = .ok resp2 ∧
      resp1.doc_id = DB.empty.next_doc_id ∧
      resp2.doc_id = DB.empty.next_doc_id + 1 ∧
      resp1.doc_id ≠ resp2.doc_id ∧
      resp1.duplicate_warning = none ∧
      resp2.duplicate_warning = some ("A document with filename '"
        ++ filename_or_unnamed (some "a.pdf") ++ "' already exists (ID: "
        ++ toString DB.empty.next_doc_id
        ++ "). This upload creates a new record.")) :=
  ⟨rfl, rfl,
   c7_duplicates_allowed_and_warned local_env local_env DB.empty
     (some "a.pdf") "r-1" "r-2" "uploads/r-1.pdf" "uploads/r-2.pdf"
     rfl rfl rfl rfl rfl⟩

/-- **C2** (proved): every invocation of each public operation — upload,
status listing, query, index trigger — appends exactly one audit event,
whose status matches the operation's outcome (SUCCESS on the success
path; FAILURE carrying the fault message on the fault path; for the
batch, SUCCESS iff no import failed, else FAILURE with the summary
message), and whose payload records outcome-determined data (the
assigned document id for uploads, the final counters for the batch), so
the append can only happen after the outcome is known. -/
theorem c2_exactly_one_audit_per_operation :
    (∀ (env : UploadEnv) (db : DB) (f : Option String) (rid : String),
      ∃ e, (upload_document env db f rid).2.audits = db.audits ++ [e] ∧
        (∀ resp, (upload_document env db f rid).1 = .ok resp →
          e.status = .success ∧
          e.sources_json = some [("filename", .str resp.filename),
            ("doc_id", .num resp.doc_id)]) ∧
        (∀ er, (upload_document env db f rid).1 = .error er →
          e.status = .failure ∧ e.error = er.detail ∧ er.detail ≠ none)) ∧
    (∀ (db : DB) (rid : String) (fault : Option String),
      ∃ e, (get_docs_status db rid fault).2.audits = db.audits ++ [e] ∧
        (∀ resp, (get_docs_status db rid fault).1 = .ok resp →
          e.status = .success) ∧
        (∀ er, (get_docs_status db rid fault).1 = .error er →
          e.status = .failure ∧ e.error = er.detail ∧ er.detail ≠ none)) ∧
    (∀ (sha : String → String) (db : DB) (q rid : String),
      ∃ e, (query_documents sha db q rid).2.audits = db.audits ++ [e] ∧
        e.status = .success) ∧
    (∀ (db : DB) (rid : String) (did : Option Nat)
        (conn : Nat → Option String),
      ∃ e, (trigger_indexing db rid did conn).2.audits = db.audits ++ [e] ∧
        (e.status = .success ↔
          (trigger_indexing db rid did conn).1.failed = 0) ∧
        ((trigger_indexing db rid did conn).1.failed ≠ 0 →
          e.status = .failure ∧ e.error
            = some (toString (trigger_indexing db rid did conn).1.failed
              ++ " of "
              ++ toString (trigger_indexing db rid did conn).1.triggered
              ++ " imports failed")) ∧
        e.sources_json = some
          [("triggered", .num (trigger_indexing db rid did conn).1.triggered),
           ("succeeded", .num (trigger_indexing db rid did conn).1.succeeded),
           ("failed", .num (trigger_indexing db rid did conn).1.failed)]) := by
  refine ⟨?_, ?_, ?_, ?_⟩
  · intro env db f rid
    cases hsv : save_uploaded_file env f rid with
    | error e =>
      have hu := upload_err_save env db f rid e hsv
      refine ⟨⟨.module_a, rid, none, none, none, none, none, none,
        .failure, some e⟩, ?_, ?_, ?_⟩
      · rw [hu]; rfl
      · intro resp hresp
        rw [hu] at hresp
        exact absurd hresp (by simp [upload_except_handler])
      · intro er her
        rw [hu] at her
        injection her with h
        rw [← h]
        exact ⟨rfl, rfl, by simp⟩
    | ok p =>
      obtain ⟨uri, fname⟩ := p
      cases hl : env.doc_ledger_fault with
      | some e =>
        have hu := upload_err_ledger env db f rid uri fname e hsv hl
        refine ⟨⟨.module_a, rid, none, none, none, none, none, none,
          .failure, some e⟩, ?_, ?_, ?_⟩
        · rw [hu]; rfl
        · intro resp hresp
          rw [hu] at hresp
          exact absurd hresp (by simp [upload_except_handler])
        · intro er her
          rw [hu] at her
          injection her with h
          rw [← h]
          exact ⟨rfl, rfl, by simp⟩
      | none =>
        have ha := upload_ok_audits env db f rid uri fname hsv hl
        have hr := upload_ok_response env db f rid uri fname hsv hl
        refine ⟨_, ha, ?_, ?_⟩
        · intro resp hresp
          rw [hr] at hresp
          injection hresp with h
          rw [← h]
          exact ⟨rfl, rfl⟩
        · intro er her
          rw [hr] at her
          exact absurd her (by simp)
  · intro db rid fault
    cases fault with
    | some e =>
      refine ⟨⟨.module_a, rid, none, none, none, none, none, none,
        .failure, some e⟩, rfl, ?_, ?_⟩
      · intro resp hresp
        exact absurd hresp (by simp [get_docs_status])
      · intro er her
        unfold get_docs_status at her
        injection her with h
        rw [← h]
        exact ⟨rfl, rfl, by simp⟩
    | none =>
      refine ⟨⟨.module_a, rid, none, none, none,
        some [("doc_count",
          .num ((get_all_docs db).map doc_status_entry).length)],
        none, none, .success, none⟩, rfl, fun resp _ => rfl, ?_⟩
      intro er her
      exact absurd her (by simp [get_docs_status])
  · intro sha db q rid
    exact ⟨_, rfl, rfl⟩
  · intro db rid did conn
    refine ⟨⟨.module_a, rid, none, none, none,
      some [("triggered", .num (trigger_indexing db rid did conn).1.triggered),
            ("succeeded", .num (trigger_indexing db rid did conn).1.succeeded),
            ("failed", .num (trigger_indexing db rid did conn).1.failed)],
      none, none,
      if (trigger_indexing db rid did conn).1.failed = 0
        then .success else .failure,
      if (trigger_indexing db rid did conn).1.failed = 0 then none
        else some (toString (trigger_indexing db rid did conn).1.failed
          ++ " of " ++ toString (trigger_indexing db rid did conn).1.triggered
          ++ " imports failed")⟩, ?_, ?_, ?_, rfl⟩
    · unfold trigger_indexing
      dsimp only
      rw [create_audit_event_audits, index_loop_audits]
    · by_cases hf : (trigger_indexing db rid did conn).1.failed = 0 <;>
        simp [hf]
    · intro hf
      simp [hf]

/-- **C9** (proved): in every batch indexing response, `triggered`
equals `succeeded + failed`, the details list has exactly `triggered`
entries, and the `j`-th entry carries the `j`-th eligible document's id
and filename with status "ready" and null error when the document's
own import succeeded, and status "failed" with the connector's non-null
error otherwise. -/
theorem c9_batch_response_relational (db : DB) (rid : String)
    (did : Option Nat) (conn : Nat → Option String) :
    (trigger_indexing db rid did conn).1.triggered
      = (trigger_indexing db rid did conn).1.succeeded
        + (trigger_indexing db rid did conn).1.failed ∧
    (trigger_indexing db rid did conn).1.details.length
      = (trigger_indexing db rid did conn).1.triggered ∧
    ∀ j d, (get_pending_gcs_docs db did).get? j = some d →
      ∃ entry, (trigger_indexing db rid did conn).1.details.get? j
          = some entry ∧
        entry.doc_id = d.id ∧ entry.filename = d.filename ∧
        (conn j = none → entry.status = "ready" ∧ entry.error = none) ∧
        (∀ m, conn j = some m →
          entry.status = "failed" ∧ entry.error = some m) := by
  have hsum := index_loop_sum conn (get_pending_gcs_docs db did) 0 db
  have hlen := index_loop_details_len conn (get_pending_gcs_docs db did) 0 db
  refine ⟨hsum.symm, hlen, ?_⟩
  intro j d h
  have hdet := index_loop_details conn (get_pending_gcs_docs db did) 0 db j d h
  rw [Nat.zero_add] at hdet
  refine ⟨_, hdet, rfl, rfl, ?_, ?_⟩
  · intro hcj
    simp [hcj]
  · intro m hcj
    simp [hcj]

/-- **C4** (proved): a batch indexing call over the `M` eligible
documents, of which those the connector rejects (`F` of them) fail,
reports `triggered = M`, `failed = F`, `succeeded = M - F`, one detail
entry per document; every failing document ends FAILED, every succeeding
one ends READY with `datastore_ref` equal to its own storage address;
and exactly one audit event is appended whose status is SUCCESS iff
`F = 0`, else FAILURE with error message "`F` of `M` imports failed". -/
theorem c4_batch_counts_and_states (db : DB) (rid : String)
    (did : Option Nat) (conn : Nat → Option String)
    (hnd : (db.docs.map (·.id)).Nodup) :
    (trigger_indexing db rid did conn).1.triggered
      = (get_pending_gcs_docs db did).length ∧
    (trigger_indexing db rid did conn).1.failed
      = (List.range (get_pending_gcs_docs db did).length).countP
          (fun j => (conn j).isSome) ∧
    (trigger_indexing db rid did conn).1.succeeded
      = (get_pending_gcs_docs db did).length
        - (List.range (get_pending_gcs_docs db did).length).countP
            (fun j => (conn j).isSome) ∧
    (trigger_indexing db rid did conn).1.details.length
      = (get_pending_gcs_docs db did).length ∧
    (∀ j d, (get_pending_gcs_docs db did).get? j = some d →
      (trigger_indexing db rid did conn).1.details.get? j = some
        ⟨d.id, d.filename, if (conn j).isNone then "ready" else "failed",
         conn j⟩ ∧
      find_doc (trigger_indexing db rid did conn).2 d.id = some
        (if (conn j).isNone
         then ⟨d.id, d.filename, d.storage_uri, d.uploaded_at, .ready,
               some d.storage_uri, d.deleted_at⟩
         else ⟨d.id, d.filename, d.storage_uri, d.uploaded_at, .failed,
               d.datastore_ref, d.deleted_at⟩)) ∧
    (∃ e, (trigger_indexing db rid did conn).2.audits = db.audits ++ [e] ∧
      e.status = (if (trigger_indexing db rid did conn).1.failed = 0
        then .success else .failure) ∧
      e.error = (if (trigger_indexing db rid did conn).1.failed = 0 then none
        else some (toString (trigger_indexing db rid did conn).1.failed
          ++ " of "
          ++ toString (trigger_indexing db rid did conn).1.triggered
          ++ " imports failed"))) := by
  have hfail := index_loop_failed conn (get_pending_gcs_docs db did) 0 db
  rw [← List.range_eq_range'] at hfail
  have hsum := index_loop_sum conn (get_pending_gcs_docs db did) 0 db
  have hsub : ((get_pending_gcs_docs db did).map (·.id)).Nodup := by
    unfold get_pending_gcs_docs
    exact hnd.sublist (List.Sublist.map _ (List.filter_sublist _))
  have hmem : ∀ d ∈ get_pending_gcs_docs db did, find_doc db d.id = some d := by
    intro d hd
    unfold get_pending_gcs_docs at hd
    exact find_doc_of_mem_nodup db d hnd (List.mem_of_mem_filter hd)
  obtain ⟨hfind, _⟩ :=
    index_loop_find conn (get_pending_gcs_docs db did) 0 db hsub hmem
  refine ⟨rfl, hfail, ?_,
    index_loop_details_len conn (get_pending_gcs_docs db did) 0 db, ?_, ?_⟩
  · have hs : (trigger_indexing db rid did conn).1.succeeded
        = (index_loop conn (get_pending_gcs_docs db did) 0 db).2.1 := rfl
    rw [hs]
    omega
  · intro j d h
    constructor
    · have := index_loop_details conn (get_pending_gcs_docs db did) 0 db j d h
      rwa [Nat.zero_add] at this
    · have := hfind j d h
      rwa [Nat.zero_add] at this
  · refine ⟨⟨.module_a, rid, none, none, none,
      some [("triggered", .num (trigger_indexing db rid did conn).1.triggered),
            ("succeeded", .num (trigger_indexing db rid did conn).1.succeeded),
            ("failed", .num (trigger_indexing db rid did conn).1.failed)],
      none, none,
      if (trigger_indexing db rid did conn).1.failed = 0
        then .success else .failure,
      if (trigger_indexing db rid did conn).1.failed = 0 then none
        else some (toString (trigger_indexing db rid did conn).1.failed
          ++ " of " ++ toString (trigger_indexing db rid did conn).1.triggered
          ++ " imports failed")⟩, ?_, rfl, rfl⟩
    unfold trigger_indexing
    dsimp only
    rw [create_audit_event_audits, index_loop_audits]

/-- Witness for `c4_batch_counts_and_states`: three eligible documents
with the connector failing for exactly the second one. -/
theorem c4_batch_counts_and_states_witness :
    (sample_gcs_db.docs.map (·.id)).Nodup ∧
    ((trigger_indexing sample_gcs_db "r-4" none sample_conn).1.triggered
      = (get_pending_gcs_docs sample_gcs_db none).length ∧
    (trigger_indexing sample_gcs_db "r-4" none sample_conn).1.failed
      = (List.range (get_pending_gcs_docs sample_gcs_db none).length).countP
          (fun j => (sample_conn j).isSome) ∧
    (trigger_indexing sample_gcs_db "r-4" none sample_conn).1.succeeded
      = (get_pending_gcs_docs sample_gcs_db none).length
        - (List.range (get_pending_gcs_docs sample_gcs_db none).length).countP
            (fun j => (sample_conn j).isSome) ∧
    (trigger_indexing sample_gcs_db "r-4" none sample_conn).1.details.length
      = (get_pending_gcs_docs sample_gcs_db none).length ∧
    (∀ j d, (get_pending_gcs_docs sample_gcs_db none).get? j = some d →
      (trigger_indexing sample_gcs_db "r-4" none
          sample_conn).1.details.get? j = some
        ⟨d.id, d.filename,
         if (sample_conn j).isNone then "ready" else "failed",
         sample_conn j⟩ ∧
      find_doc (trigger_indexing sample_gcs_db "r-4" none
          sample_conn).2 d.id = some
        (if (sample_conn j).isNone
         then ⟨d.id, d.filename, d.storage_uri, d.uploaded_at, .ready,
               some d.storage_uri, d.deleted_at⟩
         else ⟨d.id, d.filename, d.storage_uri, d.uploaded_at, .failed,
               d.datastore_ref, d.deleted_at⟩)) ∧
    (∃ e, (trigger_indexing sample_gcs_db "r-4" none sample_conn).2.audits
        = sample_gcs_db.audits ++ [e] ∧
      e.status = (if (trigger_indexing sample_gcs_db "r-4" none
          sample_conn).1.failed = 0 then .success else .failure) ∧
      e.error = (if (trigger_indexing sample_gcs_db "r-4" none
          sample_conn).1.failed = 0 then none
        else some (toString (trigger_indexing sample_gcs_db "r-4" none
            sample_conn).1.failed
          ++ " of "
          ++ toString (trigger_indexing sample_gcs_db "r-4" none
              sample_conn).1.triggered
          ++ " imports failed")))) :=
  ⟨by decide,
   c4_batch_counts_and_states sample_gcs_db "r-4" none sample_conn (by decide)⟩

/-- **C3** (proved): in every store reachable through the public
operations, every committed status transition is one of
PENDING→INDEXING, INDEXING→READY, INDEXING→FAILED (no other transition
ever occurs), and a document's `datastore_ref` is non-null if and only
if its status has reached READY at least once. -/
theorem c3_status_machine_and_datastore_ref (db : DB) (h : Reachable db) :
    (∀ t ∈ db.status_log, legal_transition t.old_status t.new_status) ∧
    (∀ d ∈ db.docs,
      d.datastore_ref ≠ none ↔ reached_ready db.status_log d.id) := by
  have hinv := reachable_inv db h
  exact ⟨hinv.log_legal, fun d hd =>
    (hinv.ref_ready d hd).trans (hinv.ready_reached d hd)⟩

/-- Witness for `c3_status_machine_and_datastore_ref`: the store after
one GCS upload whose indexing succeeded (a PENDING→INDEXING→READY run)
is reachable and satisfies both conclusions. -/
theorem c3_status_machine_and_datastore_ref_witness :
    Reachable (upload_document (gcs_env "b" none) DB.empty
      (some "a.pdf") "r-1").2 ∧
    ((∀ t ∈ (upload_document (gcs_env "b" none) DB.empty
        (some "a.pdf") "r-1").2.status_log,
      legal_transition t.old_status t.new_status) ∧
     (∀ d ∈ (upload_document (gcs_env "b" none) DB.empty
        (some "a.pdf") "r-1").2.docs,
      d.datastore_ref ≠ none ↔ reached_ready
        (upload_document (gcs_env "b" none) DB.empty
          (some "a.pdf") "r-1").2.status_log d.id)) :=
  ⟨Reachable.upload (gcs_env "b" none) (some "a.pdf") "r-1" Reachable.init,
   c3_status_machine_and_datastore_ref _
     (Reachable.upload (gcs_env "b" none) (some "a.pdf") "r-1"
       Reachable.init)⟩

end SmeOps
